import Mathlib

/-!
Verification of the Eliza Town static asset server (`src/server.py`).

The server is a thin subclass `CORSHandler` of Python's
`http.server.SimpleHTTPRequestHandler`:

* it overrides the class attribute `extensions_map` with
  `{**SimpleHTTPRequestHandler.extensions_map, '.gltf': 'model/gltf+json',
  '.glb': 'model/gltf-binary', '.bin': 'application/octet-stream'}`;
* it overrides `end_headers` to send `Access-Control-Allow-Origin: *` and
  `Cache-Control: no-cache` before delegating to the base `end_headers`;
* at module level it reads `PORT = int(os.environ.get("PORT", 10000))`,
  binds a `TCPServer`, prints one banner line and serves forever.

The request-handling logic itself lives in the Python standard library
(`SimpleHTTPRequestHandler` / `BaseHTTPRequestHandler`), to which the
specification delegates; those parts are modelled here from the spec and
the documented standard-library behaviour, while everything written in
`src/server.py` (the table override, the header hook, the startup line)
is translated directly from the source.
-/

namespace ElizaTown

/-! ### Python dict as an insertion-ordered association list -/

/-- Lookup in a Python dict modelled as an association list: the value of
the first pair whose key equals `k` (keys are unique in a real dict, so
"first" is exact). -/
def dictLookup : List (String × String) → String → Option String
  | [], _ => none
  | (a, b) :: t, k => if a = k then some b else dictLookup t k

/-- `d[k] = v` on a Python dict: replace the value at an existing key
(keeping its insertion position) or append the new pair at the end. -/
def dictInsert : List (String × String) → String → String → List (String × String)
  | [], k, v => [(k, v)]
  | (a, b) :: t, k, v => if a = k then (k, v) :: t else (a, b) :: dictInsert t k v

/-! ### The MIME type table of `CORSHandler` (src/server.py lines 8-13) -/

/-- The class attribute `http.server.SimpleHTTPRequestHandler.extensions_map`
of the platform (CPython ≥ 3.9): the four compressed-encoding entries.
This is the base dict spread into the override in src/server.py line 9. -/
def baseExtensionsMap : List (String × String) :=
  [(".gz", "application/gzip"),
   (".Z", "application/octet-stream"),
   (".bz2", "application/x-bzip2"),
   (".xz", "application/x-xz")]

/-- The dict display `{**base, '.gltf': …, '.glb': …, '.bin': …}` from
src/server.py lines 8-13, for an arbitrary base table: the base entries
followed by the three model-asset entries (each added or overriding). -/
def mergeOverrides (base : List (String × String)) : List (String × String) :=
  dictInsert
    (dictInsert
      (dictInsert base ".gltf" "model/gltf+json")
      ".glb" "model/gltf-binary")
    ".bin" "application/octet-stream"

/-- `CORSHandler.extensions_map`: the platform table with the three
overrides applied. -/
def extensionsMap : List (String × String) :=
  mergeOverrides baseExtensionsMap

/-! ### `posixpath.splitext`, used by the standard library MIME lookup -/

/-- Index of the last occurrence of `c` in `cs` (accumulator version of
Python's `str.rfind` restricted to a single character). -/
def lastIndexOfAux (c : Char) : List Char → Nat → Option Nat → Option Nat
  | [], _, best => best
  | x :: t, i, best => lastIndexOfAux c t (i + 1) (if x = c then some i else best)

/-- `p.rfind(c)` as an `Option`: `none` when `c` does not occur. -/
def lastIndexOf (cs : List Char) (c : Char) : Option Nat :=
  lastIndexOfAux c cs 0 none

/-- Modelled from the spec: `posixpath.splitext`, the extension-splitting
step of the standard library MIME lookup that src/server.py inherits.
Splits at the last dot after the last slash, except that a basename made
only of leading dots has no extension (CPython `genericpath._splitext`). -/
def splitext (p : String) : String × String :=
  let cs := p.data
  match lastIndexOf cs '.' with
  | none => (p, "")
  | some dotIndex =>
    let sepIndex : Int :=
      match lastIndexOf cs '/' with
      | none => -1
      | some i => (i : Int)
    if sepIndex < (dotIndex : Int) then
      let start : Nat := (sepIndex + 1).toNat
      if ((cs.drop start).take (dotIndex - start)).any (fun c => c ≠ '.') then
        (⟨cs.take dotIndex⟩, ⟨cs.drop dotIndex⟩)
      else (p, "")
    else (p, "")

/-- Modelled from the spec: Python's `str.lower()` as applied to extension
strings by the standard-library MIME lookup — character-wise lowercasing
(ASCII scope; extensions here are ASCII). -/
def pyLower (s : String) : String :=
  ⟨s.data.map Char.toLower⟩

/-! ### MIME lookup (`SimpleHTTPRequestHandler.guess_type`)

The platform's `mimetypes` table is abstracted as a function
`platform : String → Option String` standing for
`mimetypes.guess_type(path)[0]`. -/

/-- Modelled from the spec: `SimpleHTTPRequestHandler.guess_type`, the
standard-library content-type derivation that src/server.py inherits,
consulting the (overridden) `extensions_map`: probe the extension
exact-case, then lowercased, then fall back to the platform `mimetypes`
table, then to the generic binary type. -/
def guessType (platform : String → Option String) (path : String) : String :=
  match dictLookup extensionsMap (splitext path).2 with
  | some t => t
  | none =>
    match dictLookup extensionsMap (pyLower (splitext path).2) with
    | some t => t
    | none =>
      match platform path with
      | some t => t
      | none => "application/octet-stream"

/-- Modelled from the spec: the stock `SimpleHTTPRequestHandler.guess_type`
without the src/server.py override — the same probe chain over the
unmodified platform table `baseExtensionsMap`. Used to compare the
handler's content type with the platform default for non-overridden
extensions. -/
def defaultGuessType (platform : String → Option String) (path : String) : String :=
  match dictLookup baseExtensionsMap (splitext path).2 with
  | some t => t
  | none =>
    match dictLookup baseExtensionsMap (pyLower (splitext path).2) with
    | some t => t
    | none =>
      match platform path with
      | some t => t
      | none => "application/octet-stream"

/-! ### HTTP responses and the `end_headers` hook (src/server.py lines 15-18) -/

/-- An HTTP response header: a name/value pair. -/
structure Header where
  name : String
  value : String
deriving DecidableEq, Repr

/-- An HTTP response: status code, header list in send order, body bytes. -/
structure Response where
  status : Nat
  headers : List Header
  body : List Nat
deriving DecidableEq, Repr

/-- The two headers `CORSHandler.end_headers` sends on every response
(src/server.py lines 16-17). -/
def corsHeaders : List Header :=
  [⟨"Access-Control-Allow-Origin", "*"⟩, ⟨"Cache-Control", "no-cache"⟩]

/-- `CORSHandler.end_headers` (src/server.py lines 15-18): given the headers
accumulated so far by the handler, send the two CORS headers and then
finalize via the base `end_headers`. Modelled on the header list: the two
headers are appended after the already-sent ones, just before the blank
line that finalizes the header block. -/
def endHeaders (hs : List Header) : List Header :=
  hs ++ corsHeaders

/-- ASCII bytes of a string, for modelled response bodies. -/
def asciiBytes (s : String) : List Nat :=
  s.data.map Char.toNat

/-- Modelled from the spec: `BaseHTTPRequestHandler.send_error`, the
standard-library error path src/server.py inherits — status line, error
headers, `end_headers` (hence the `CORSHandler` hook), and an HTML error
page body. -/
def sendError (code : Nat) (message : String) : Response :=
  { status := code
    headers := endHeaders
      [⟨"Content-Type", "text/html;charset=utf-8"⟩, ⟨"Connection", "close"⟩]
    body := asciiBytes message }

/-- Modelled from the spec: the 200 file branch of
`SimpleHTTPRequestHandler.send_head` — status 200, `Content-Type` from the
MIME lookup, `Content-Length`, headers finalized through `end_headers`,
body the file's bytes. -/
def fileResponse (platform : String → Option String) (path : String)
    (contents : List Nat) : Response :=
  { status := 200
    headers := endHeaders
      [⟨"Content-Type", guessType platform path⟩,
       ⟨"Content-Length", toString contents.length⟩]
    body := contents }

/-- A filesystem entry under the served root: a regular file with its byte
contents, or a directory. -/
inductive Entry where
  | file (contents : List Nat)
  | directory
deriving DecidableEq

/-- Modelled from the spec: the generated directory listing of
`SimpleHTTPRequestHandler.list_directory` — a 200 HTML page whose exact
body the spec delegates to the library; headers finalized through
`end_headers`. -/
def listingResponse (path : String) : Response :=
  { status := 200
    headers := endHeaders [⟨"Content-Type", "text/html;charset=utf-8"⟩]
    body := asciiBytes path }

/-- Modelled from the spec: `SimpleHTTPRequestHandler.send_head`, the
standard-library GET/HEAD resolution src/server.py inherits. The served
root's state is a map `fs` from URL path to entry. A missing entry yields
404; a regular file yields the 200 file response; a directory yields a 301
redirect to the slash-terminated path, else the index file if present,
else the generated listing. -/
def handleGET (platform : String → Option String) (fs : String → Option Entry)
    (path : String) : Response :=
  match fs path with
  | none => sendError 404 "File not found"
  | some (Entry.file contents) => fileResponse platform path contents
  | some Entry.directory =>
    if path.endsWith "/" then
      match fs (path ++ "index.html") with
      | some (Entry.file contents) => fileResponse platform (path ++ "index.html") contents
      | _ => listingResponse path
    else
      { status := 301
        headers := endHeaders [⟨"Location", path ++ "/"⟩]
        body := [] }

/-- Modelled from the spec: `BaseHTTPRequestHandler` method dispatch — GET
and HEAD are served (HEAD with the same head and an empty body), any other
method gets a 501 error response. -/
def handleRequest (platform : String → Option String) (fs : String → Option Entry)
    (method : String) (path : String) : Response :=
  if method = "GET" then handleGET platform fs path
  else if method = "HEAD" then
    { handleGET platform fs path with body := [] }
  else sendError 501 ("Unsupported method (" ++ method ++ ")")

/-- Both CORS headers appear in a response's header list. -/
def hasCors (r : Response) : Prop :=
  Header.mk "Access-Control-Allow-Origin" "*" ∈ r.headers ∧
    Header.mk "Cache-Control" "no-cache" ∈ r.headers

/-! ### `PORT = int(os.environ.get("PORT", 10000))` (src/server.py line 5) -/

/-- The characters Python's `int(str)` conversion strips from both ends
(the ASCII part of Python's whitespace set). -/
def isPySpace (c : Char) : Bool :=
  c = ' ' || c = '\t' || c = '\n' || c = '\r' || c = '\x0b' || c = '\x0c'

/-- Strip leading and trailing Python whitespace from a character list. -/
def pyStrip (cs : List Char) : List Char :=
  ((cs.dropWhile isPySpace).reverse.dropWhile isPySpace).reverse

/-- Scan the digit part of a Python integer literal after its first digit:
decimal digits with single underscores allowed only between digits.
`prevUnderscore` records whether the previous character was `_`. -/
def scanDigits (acc : Nat) (prevUnderscore : Bool) : List Char → Option Nat
  | [] => if prevUnderscore then none else some acc
  | c :: cs =>
    if c.isDigit then scanDigits (acc * 10 + (c.toNat - 48)) false cs
    else if c = '_' then
      if prevUnderscore then none else scanDigits acc true cs
    else none

/-- Parse an unsigned Python decimal literal: a leading digit followed by
digits with single internal underscores. -/
def parseUDigits : List Char → Option Nat
  | [] => none
  | c :: cs => if c.isDigit then scanDigits (c.toNat - 48) false cs else none

/-- Modelled from the spec: Python's `int(str)` conversion used at
src/server.py line 5 — strip whitespace, an optional single sign, then a
nonempty ASCII decimal digit run with single internal underscores;
anything else raises `ValueError` (here `none`). Non-ASCII digits, also
accepted by CPython, are outside this model. -/
def pyInt (s : String) : Option Int :=
  match pyStrip s.data with
  | [] => none
  | c :: rest =>
    if c = '+' then (parseUDigits rest).map Int.ofNat
    else if c = '-' then (parseUDigits rest).map (fun n => -(Int.ofNat n))
    else (parseUDigits (c :: rest)).map Int.ofNat

/-- `int(os.environ.get("PORT", 10000))` (src/server.py line 5): with the
variable unset `os.environ.get` returns the default `10000` and `int` is
the identity on it; with it set, Python string-to-int conversion applies. -/
def resolvePort (env : Option String) : Option Int :=
  match env with
  | none => some 10000
  | some s => pyInt s

/-- The startup banner printed at src/server.py line 21. -/
def bannerLine (port : Int) : String :=
  "Eliza Town server running at http://localhost:" ++ toString port

/-- Observable startup state: the bound port and the lines written to
standard output before `serve_forever`. -/
structure StartupResult where
  port : Int
  stdoutLines : List String
deriving DecidableEq, Repr

/-- Startup of src/server.py lines 5 and 20-22: resolve `PORT` (an
unparseable value raises `ValueError` and the process dies before binding),
bind the `TCPServer`, print the single banner line, then serve. -/
def startup (env : Option String) : Except String StartupResult :=
  match resolvePort env with
  | none => Except.error "ValueError: invalid literal for int with base 10"
  | some p => Except.ok ⟨p, [bannerLine p]⟩

/-- The place value of a digit run: fold of `acc * 10 + digit`. -/
def digitsVal (acc : Nat) : List Char → Nat
  | [] => acc
  | c :: cs => digitsVal (acc * 10 + (c.toNat - 48)) cs

/-! ### Shared lemmas -/

/-- A Python dict lookup after `d[k] = v`: the inserted value at `k`, the
old table elsewhere. -/
lemma dictLookup_dictInsert (d : List (String × String)) (k v k' : String) :
    dictLookup (dictInsert d k v) k' = if k = k' then some v else dictLookup d k' := by
  induction d with
  | nil => simp [dictInsert, dictLookup]
  | cons a t ih =>
    obtain ⟨a1, a2⟩ := a
    by_cases hak : a1 = k
    · subst hak
      by_cases hkk : a1 = k'
      · subst hkk
        simp [dictInsert, dictLookup]
      · simp [dictInsert, dictLookup, hkk]
    · by_cases hak' : a1 = k'
      · subst hak'
        simp [dictInsert, dictLookup, hak]
        rw [if_neg (fun h => hak h.symm)]
      · simp [dictInsert, dictLookup, hak, hak', ih]

/-- The `{**base, …}` table of src/server.py agrees with the base table on
every key other than the three overridden ones. -/
lemma dictLookup_mergeOverrides_of_ne (base : List (String × String)) (k : String)
    (h1 : k ≠ ".gltf") (h2 : k ≠ ".glb") (h3 : k ≠ ".bin") :
    dictLookup (mergeOverrides base) k = dictLookup base k := by
  unfold mergeOverrides
  rw [dictLookup_dictInsert, dictLookup_dictInsert, dictLookup_dictInsert,
    if_neg (fun h => h3 h.symm), if_neg (fun h => h2 h.symm), if_neg (fun h => h1 h.symm)]

/-- The `{**base, …}` table of src/server.py holds the three overridden
values whatever the base table is. -/
lemma dictLookup_mergeOverrides_overridden (base : List (String × String)) :
    dictLookup (mergeOverrides base) ".gltf" = some "model/gltf+json" ∧
    dictLookup (mergeOverrides base) ".glb" = some "model/gltf-binary" ∧
    dictLookup (mergeOverrides base) ".bin" = some "application/octet-stream" := by
  refine ⟨?_, ?_, ?_⟩ <;>
    simp [mergeOverrides, dictLookup_dictInsert]

/-- Every header list finalized by `CORSHandler.end_headers` contains the
two CORS headers. -/
lemma hasCors_of_headers_endHeaders (r : Response) (hs : List Header)
    (h : r.headers = endHeaders hs) : hasCors r := by
  constructor <;> rw [h] <;> simp [endHeaders, corsHeaders]

/-- Every branch of the GET resolution finalizes through
`CORSHandler.end_headers`, so both CORS headers are present. -/
lemma hasCors_handleGET (platform : String → Option String) (fs : String → Option Entry)
    (path : String) : hasCors (handleGET platform fs path) := by
  unfold handleGET
  cases hfs : fs path with
  | none => exact hasCors_of_headers_endHeaders _ _ rfl
  | some e =>
    cases e with
    | file contents => exact hasCors_of_headers_endHeaders _ _ rfl
    | directory =>
      by_cases hp : path.endsWith "/" = true
      · rw [if_pos hp]
        cases hix : fs (path ++ "index.html") with
        | none => exact hasCors_of_headers_endHeaders _ _ rfl
        | some e2 =>
          cases e2 with
          | file c2 => exact hasCors_of_headers_endHeaders _ _ rfl
          | directory => exact hasCors_of_headers_endHeaders _ _ rfl
      · rw [if_neg hp]
        exact hasCors_of_headers_endHeaders _ _ rfl

/-- The content type sent for a regular file is the MIME lookup's result. -/
lemma contentTypeHeader_of_file (platform : String → Option String)
    (fs : String → Option Entry) (path : String) (contents : List Nat)
    (h : fs path = some (Entry.file contents)) :
    Header.mk "Content-Type" (guessType platform path) ∈
      (handleRequest platform fs "GET" path).headers := by
  unfold handleRequest
  rw [if_pos rfl]
  unfold handleGET
  rw [h]
  simp [fileResponse, endHeaders]

/-! ### Claims -/

/-- C1: a GET for a URL path that the served root maps to a regular file
returns status 200 with a body byte-identical to the file's contents. -/
theorem getFileServesBytes (platform : String → Option String)
    (fs : String → Option Entry) (path : String) (contents : List Nat)
    (h : fs path = some (Entry.file contents)) :
    (handleRequest platform fs "GET" path).status = 200 ∧
    (handleRequest platform fs "GET" path).body = contents := by
  unfold handleRequest
  rw [if_pos rfl]
  unfold handleGET
  rw [h]
  exact ⟨rfl, rfl⟩

/-- C1 witness: a one-file root serving `/model.glb` with bytes `[7, 7, 7]`. -/
theorem getFileServesBytesWitness :
    (handleRequest (fun _ => none)
      (fun p => if p = "/model.glb" then some (Entry.file [7, 7, 7]) else none)
      "GET" "/model.glb").status = 200 ∧
    (handleRequest (fun _ => none)
      (fun p => if p = "/model.glb" then some (Entry.file [7, 7, 7]) else none)
      "GET" "/model.glb").body = [7, 7, 7] :=
  getFileServesBytes (fun _ => none)
    (fun p => if p = "/model.glb" then some (Entry.file [7, 7, 7]) else none)
    "/model.glb" [7, 7, 7] rfl

/-- C2: every response the handler produces — success or error, any
method, any path — carries both `Access-Control-Allow-Origin: *` and
`Cache-Control: no-cache`, added before the header block is finalized. -/
theorem corsHeadersOnEveryResponse (platform : String → Option String)
    (fs : String → Option Entry) (method path : String) :
    hasCors (handleRequest platform fs method path) := by
  unfold handleRequest
  by_cases hg : method = "GET"
  · rw [if_pos hg]
    exact hasCors_handleGET platform fs path
  · rw [if_neg hg]
    by_cases hh : method = "HEAD"
    · rw [if_pos hh]
      have h := hasCors_handleGET platform fs path
      exact ⟨h.1, h.2⟩
    · rw [if_neg hh]
      exact hasCors_of_headers_endHeaders _ _ rfl

/-- C3: a served regular file with extension exactly `.gltf`, `.glb` or
`.bin` is sent with `Content-Type` `model/gltf+json`, `model/gltf-binary`
or `application/octet-stream` respectively, whatever the platform
`mimetypes` table says. -/
theorem modelExtensionsContentType (platform : String → Option String)
    (fs : String → Option Entry) (path : String) (contents : List Nat)
    (hf : fs path = some (Entry.file contents)) :
    ((splitext path).2 = ".gltf" →
      Header.mk "Content-Type" "model/gltf+json" ∈
        (handleRequest platform fs "GET" path).headers) ∧
    ((splitext path).2 = ".glb" →
      Header.mk "Content-Type" "model/gltf-binary" ∈
        (handleRequest platform fs "GET" path).headers) ∧
    ((splitext path).2 = ".bin" →
      Header.mk "Content-Type" "application/octet-stream" ∈
        (handleRequest platform fs "GET" path).headers) := by
  refine ⟨fun h => ?_, fun h => ?_, fun h => ?_⟩
  · have hm := contentTypeHeader_of_file platform fs path contents hf
    have hg : guessType platform path = "model/gltf+json" := by
      unfold guessType
      rw [h]
      rfl
    rw [hg] at hm
    exact hm
  · have hm := contentTypeHeader_of_file platform fs path contents hf
    have hg : guessType platform path = "model/gltf-binary" := by
      unfold guessType
      rw [h]
      rfl
    rw [hg] at hm
    exact hm
  · have hm := contentTypeHeader_of_file platform fs path contents hf
    have hg : guessType platform path = "application/octet-stream" := by
      unfold guessType
      rw [h]
      rfl
    rw [hg] at hm
    exact hm

/-- C3 witness: `/model.glb` with a one-file root gets
`Content-Type: model/gltf-binary`. -/
theorem modelExtensionsContentTypeWitness :
    Header.mk "Content-Type" "model/gltf-binary" ∈
      (handleRequest (fun _ => none)
        (fun p => if p = "/model.glb" then some (Entry.file [7, 7, 7]) else none)
        "GET" "/model.glb").headers :=
  (modelExtensionsContentType (fun _ => none)
    (fun p => if p = "/model.glb" then some (Entry.file [7, 7, 7]) else none)
    "/model.glb" [7, 7, 7] rfl).2.1 rfl

/-- C4: with `PORT` unset the server starts on port 10000; with
`PORT=8080` on port 8080; with `PORT=notanumber` startup fails instead of
falling back to the default port. -/
theorem portStartupBehavior :
    startup none =
      Except.ok ⟨10000, ["Eliza Town server running at http://localhost:10000"]⟩ ∧
    startup (some "8080") =
      Except.ok ⟨8080, ["Eliza Town server running at http://localhost:8080"]⟩ ∧
    startup (some "notanumber") =
      Except.error "ValueError: invalid literal for int with base 10" := by
  refine ⟨rfl, rfl, rfl⟩

/-- C6: a GET for a URL path with no entry under the served root returns
status 404. -/
theorem missingEntryGives404 (platform : String → Option String)
    (fs : String → Option Entry) (path : String) (h : fs path = none) :
    (handleRequest platform fs "GET" path).status = 404 := by
  unfold handleRequest
  rw [if_pos rfl]
  unfold handleGET
  rw [h]
  rfl

/-- C6 witness: an empty served root answers 404 to `/missing`. -/
theorem missingEntryGives404Witness :
    (handleRequest (fun _ => none) (fun _ => none) "GET" "/missing").status = 404 :=
  missingEntryGives404 (fun _ => none) (fun _ => none) "/missing" rfl

/-- C8: whenever startup succeeds, exactly one line is written to standard
output, and it is the banner `Eliza Town server running at
http://localhost:<port>` for the resolved port. -/
theorem startupBannerSingleLine (env : Option String) (r : StartupResult)
    (h : startup env = Except.ok r) :
    r.stdoutLines = [bannerLine r.port] ∧
    r.stdoutLines.length = 1 ∧
    bannerLine r.port = "Eliza Town server running at http://localhost:" ++ toString r.port := by
  unfold startup at h
  cases hp : resolvePort env with
  | none => rw [hp] at h; cases h
  | some p =>
    rw [hp] at h
    injection h with h
    subst h
    exact ⟨rfl, rfl, rfl⟩

/-- C8 witness: startup with `PORT` unset prints exactly the banner for
port 10000. -/
theorem startupBannerSingleLineWitness :
    (⟨10000, ["Eliza Town server running at http://localhost:10000"]⟩ :
        StartupResult).stdoutLines =
      [bannerLine (⟨10000, ["Eliza Town server running at http://localhost:10000"]⟩ :
        StartupResult).port] ∧
    (⟨10000, ["Eliza Town server running at http://localhost:10000"]⟩ :
        StartupResult).stdoutLines.length = 1 ∧
    bannerLine (⟨10000, ["Eliza Town server running at http://localhost:10000"]⟩ :
        StartupResult).port =
      "Eliza Town server running at http://localhost:" ++
        toString (⟨10000, ["Eliza Town server running at http://localhost:10000"]⟩ :
          StartupResult).port :=
  startupBannerSingleLine none
    ⟨10000, ["Eliza Town server running at http://localhost:10000"]⟩ rfl

/-- C9: the handler's table is the platform class table with exactly the
three keys `.gltf`, `.glb`, `.bin` added or replaced — any other key has
the same entry (or absence of one) as in the base table, and the three
keys map to the overridden values. -/
theorem mergePreservesOtherExtensions (base : List (String × String)) (k : String)
    (h1 : k ≠ ".gltf") (h2 : k ≠ ".glb") (h3 : k ≠ ".bin") :
    dictLookup (mergeOverrides base) k = dictLookup base k ∧
    dictLookup (mergeOverrides base) ".gltf" = some "model/gltf+json" ∧
    dictLookup (mergeOverrides base) ".glb" = some "model/gltf-binary" ∧
    dictLookup (mergeOverrides base) ".bin" = some "application/octet-stream" :=
  ⟨dictLookup_mergeOverrides_of_ne base k h1 h2 h3,
   dictLookup_mergeOverrides_overridden base⟩

/-- C9 witness: over the concrete platform class table, `.png` is
unaffected by the override. -/
theorem mergePreservesOtherExtensionsWitness :
    dictLookup (mergeOverrides baseExtensionsMap) ".png" =
      dictLookup baseExtensionsMap ".png" ∧
    dictLookup (mergeOverrides baseExtensionsMap) ".gltf" = some "model/gltf+json" ∧
    dictLookup (mergeOverrides baseExtensionsMap) ".glb" = some "model/gltf-binary" ∧
    dictLookup (mergeOverrides baseExtensionsMap) ".bin" = some "application/octet-stream" :=
  mergePreservesOtherExtensions baseExtensionsMap ".png"
    (by decide) (by decide) (by decide)

/-- C5 counterexample: the table has no `.GLB` key, yet the MIME lookup
resolves a `.GLB` path to the `.glb` entry `model/gltf-binary` (through
the standard-library lowercase retry), even with an empty platform table —
so `.GLB` is looked up as `.glb`, contrary to the claim. -/
theorem mimeCaseSensitiveCounterexample :
    dictLookup extensionsMap ".GLB" = none ∧
    guessType (fun _ => none) "model.GLB" = "model/gltf-binary" :=
  ⟨rfl, rfl⟩

/-- C5 amended: the table's keys themselves are exact-case (there is a
`.glb` entry but no `.GLB` entry), but the content-type lookup retries
with the lowercased extension after the exact-case probe misses, so a
miss at the provided case falls through to the lowercase entry. -/
theorem mimeLookupLowercaseFallback (platform : String → Option String)
    (path t : String)
    (hmiss : dictLookup extensionsMap (splitext path).2 = none)
    (hlower : dictLookup extensionsMap (pyLower (splitext path).2) = some t) :
    guessType platform path = t ∧
    dictLookup extensionsMap ".GLB" = none ∧
    dictLookup extensionsMap ".glb" = some "model/gltf-binary" := by
  refine ⟨?_, rfl, rfl⟩
  simp [guessType, hmiss, hlower]

/-- C5 amended witness: `a.GLB` resolves through the lowercase retry to
`model/gltf-binary`. -/
theorem mimeLookupLowercaseFallbackWitness :
    guessType (fun _ => none) "a.GLB" = "model/gltf-binary" ∧
    dictLookup extensionsMap ".GLB" = none ∧
    dictLookup extensionsMap ".glb" = some "model/gltf-binary" :=
  mimeLookupLowercaseFallback (fun _ => none) "a.GLB" "model/gltf-binary" rfl rfl

/-- C7 counterexample: `.GLTF` is not among the three overridden entries,
yet with an empty platform table the handler returns the override value
`model/gltf+json` (through the lowercase retry) where the stock platform
derivation returns the generic binary type. -/
theorem platformDefaultCounterexample :
    ¬((splitext "a.GLTF").2 = ".gltf" ∨ (splitext "a.GLTF").2 = ".glb" ∨
      (splitext "a.GLTF").2 = ".bin") ∧
    guessType (fun _ => none) "a.GLTF" = "model/gltf+json" ∧
    defaultGuessType (fun _ => none) "a.GLTF" = "application/octet-stream" :=
  ⟨by decide, rfl, rfl⟩

/-- C7 amended: when neither the extension nor its lowercased form is one
of the three overridden keys, the handler's content type equals the stock
platform derivation (class table exact-case, then lowercased, then the
platform `mimetypes` table), and when the extension is unknown there as
well the generic binary type is returned. -/
theorem platformFallbackForOtherExtensions (platform : String → Option String)
    (path : String)
    (h1 : (splitext path).2 ∉ [".gltf", ".glb", ".bin"])
    (h2 : pyLower (splitext path).2 ∉ [".gltf", ".glb", ".bin"]) :
    guessType platform path = defaultGuessType platform path ∧
    (platform path = none →
      dictLookup baseExtensionsMap (splitext path).2 = none →
      dictLookup baseExtensionsMap (pyLower (splitext path).2) = none →
      guessType platform path = "application/octet-stream") := by
  simp only [List.mem_cons, List.not_mem_nil, or_false, not_or] at h1 h2
  obtain ⟨h1a, h1b, h1c⟩ := h1
  obtain ⟨h2a, h2b, h2c⟩ := h2
  have e1 : dictLookup extensionsMap (splitext path).2 =
      dictLookup baseExtensionsMap (splitext path).2 :=
    dictLookup_mergeOverrides_of_ne baseExtensionsMap _ h1a h1b h1c
  have e2 : dictLookup extensionsMap (pyLower (splitext path).2) =
      dictLookup baseExtensionsMap (pyLower (splitext path).2) :=
    dictLookup_mergeOverrides_of_ne baseExtensionsMap _ h2a h2b h2c
  constructor
  · unfold guessType defaultGuessType
    rw [e1, e2]
  · intro hp hb1 hb2
    simp [guessType, e1, e2, hb1, hb2, hp]

/-- C7 amended witness: `a.png`, unknown everywhere, gets the stock
derivation and the generic binary type. -/
theorem platformFallbackForOtherExtensionsWitness :
    guessType (fun _ => none) "a.png" = defaultGuessType (fun _ => none) "a.png" ∧
    guessType (fun _ => none) "a.png" = "application/octet-stream" :=
  ⟨(platformFallbackForOtherExtensions (fun _ => none) "a.png"
      (by decide) (by decide)).1,
   (platformFallbackForOtherExtensions (fun _ => none) "a.png"
      (by decide) (by decide)).2 rfl rfl rfl⟩

/-! ### Lemmas for the Python `int()` grammar (claim C10) -/

/-- The head given by `head?` is a member of the list. -/
lemma mem_of_headQ {α : Type} (l : List α) (a : α) (h : l.head? = some a) : a ∈ l := by
  cases l with
  | nil => cases h
  | cons x t =>
    simp only [List.head?_cons, Option.some.injEq] at h
    rw [← h]
    exact List.mem_cons_self x t

/-- Dropping while `p` holds skips a prefix on which `p` is everywhere true. -/
lemma dropWhile_append_left (p : Char → Bool) (l1 l2 : List Char)
    (h : ∀ c ∈ l1, p c = true) :
    (l1 ++ l2).dropWhile p = l2.dropWhile p := by
  induction l1 with
  | nil => rfl
  | cons a t ih =>
    rw [List.cons_append, List.dropWhile_cons, if_pos (h a (List.mem_cons_self a t))]
    exact ih (fun c hc => h c (List.mem_cons_of_mem a hc))

/-- Dropping while `p` holds stops at a head on which `p` is false. -/
lemma dropWhile_of_head_false (p : Char → Bool) (a : Char) (l : List Char)
    (h : p a = false) :
    (a :: l).dropWhile p = a :: l := by
  rw [List.dropWhile_cons, if_neg]
  simp [h]

/-- Stripping Python whitespace around a block whose first and last
characters are not whitespace recovers exactly the block. -/
lemma pyStrip_sandwich (ws1 ws2 mid : List Char)
    (h1 : ∀ c ∈ ws1, isPySpace c = true) (h2 : ∀ c ∈ ws2, isPySpace c = true)
    (hne : mid ≠ [])
    (hhead : ∀ c, mid.head? = some c → isPySpace c = false)
    (hlast : ∀ c, mid.reverse.head? = some c → isPySpace c = false) :
    pyStrip (ws1 ++ mid ++ ws2) = mid := by
  obtain ⟨c, t, rfl⟩ := List.exists_cons_of_ne_nil hne
  have hc : isPySpace c = false := hhead c rfl
  have hrevne : (c :: t).reverse ≠ [] := by simp
  obtain ⟨d, l', hrev⟩ := List.exists_cons_of_ne_nil hrevne
  have hdns : isPySpace d = false := hlast d (by rw [hrev]; rfl)
  unfold pyStrip
  rw [List.append_assoc, dropWhile_append_left _ ws1 _ h1,
    List.cons_append, dropWhile_of_head_false _ _ _ hc,
    List.reverse_cons, List.reverse_append, List.append_assoc,
    dropWhile_append_left _ ws2.reverse _
      (fun x hx => h2 x (List.mem_reverse.mp hx)),
    ← List.reverse_cons, hrev, dropWhile_of_head_false _ _ _ hdns,
    ← hrev, List.reverse_reverse]

/-- A digit is not Python whitespace. -/
lemma isPySpace_false_of_isDigit (c : Char) (h : c.isDigit = true) :
    isPySpace c = false := by
  cases hb : isPySpace c
  · rfl
  · exfalso
    simp only [isPySpace, Bool.or_eq_true, decide_eq_true_eq] at hb
    rcases hb with ((((rfl | rfl) | rfl) | rfl) | rfl) | rfl <;>
      exact absurd h (by decide)

/-- Unfolding of the digit-value fold on a cons cell. -/
lemma digitsVal_cons (acc : Nat) (c : Char) (cs : List Char) :
    digitsVal acc (c :: cs) = digitsVal (acc * 10 + (c.toNat - 48)) cs := rfl

/-- The digit scanner accepts a pure digit run and folds its value. -/
lemma scanDigits_all_digits (ds : List Char) (hd : ∀ c ∈ ds, c.isDigit = true)
    (acc : Nat) :
    scanDigits acc false ds = some (digitsVal acc ds) := by
  induction ds generalizing acc with
  | nil => rfl
  | cons c t ih =>
    have hc : c.isDigit = true := hd c (List.mem_cons_self c t)
    rw [scanDigits, if_pos hc, digitsVal_cons]
    exact ih (fun x hx => hd x (List.mem_cons_of_mem c hx)) _

/-- The unsigned literal parser accepts a nonempty pure digit run. -/
lemma parseUDigits_all_digits (ds : List Char) (hd : ∀ c ∈ ds, c.isDigit = true)
    (hne : ds ≠ []) :
    parseUDigits ds = some (digitsVal 0 ds) := by
  obtain ⟨c, t, rfl⟩ := List.exists_cons_of_ne_nil hne
  have hc : c.isDigit = true := hd c (List.mem_cons_self c t)
  rw [parseUDigits, if_pos hc, digitsVal_cons, Nat.zero_mul, Nat.zero_add]
  exact scanDigits_all_digits t (fun x hx => hd x (List.mem_cons_of_mem c hx)) _

/-- `int()` on a string that strips to a bare digit run. -/
lemma pyInt_of_strip_digits (s : String) (ds : List Char)
    (hstrip : pyStrip s.data = ds)
    (hd : ∀ c ∈ ds, c.isDigit = true) (hne : ds ≠ []) :
    pyInt s = some (Int.ofNat (digitsVal 0 ds)) := by
  unfold pyInt
  rw [hstrip]
  obtain ⟨c, t, rfl⟩ := List.exists_cons_of_ne_nil hne
  have hc : c.isDigit = true := hd c (List.mem_cons_self c t)
  have hplus : ¬(c = '+') := fun h => by subst h; exact absurd hc (by decide)
  have hminus : ¬(c = '-') := fun h => by subst h; exact absurd hc (by decide)
  show (if c = '+' then (parseUDigits t).map Int.ofNat
        else if c = '-' then (parseUDigits t).map (fun n => -(Int.ofNat n))
        else (parseUDigits (c :: t)).map Int.ofNat) =
      some (Int.ofNat (digitsVal 0 (c :: t)))
  rw [if_neg hplus, if_neg hminus,
    parseUDigits_all_digits (c :: t) hd (List.cons_ne_nil c t)]
  rfl

/-- `int()` on a string that strips to a plus sign before a digit run. -/
lemma pyInt_of_strip_plus_digits (s : String) (ds : List Char)
    (hstrip : pyStrip s.data = '+' :: ds)
    (hd : ∀ c ∈ ds, c.isDigit = true) (hne : ds ≠ []) :
    pyInt s = some (Int.ofNat (digitsVal 0 ds)) := by
  unfold pyInt
  rw [hstrip]
  show (parseUDigits ds).map Int.ofNat = some (Int.ofNat (digitsVal 0 ds))
  rw [parseUDigits_all_digits ds hd hne]
  rfl

/-- C10: `PORT` parsing follows Python `int()` semantics — any decimal
digit run, optionally surrounded by whitespace and optionally preceded by
a plus sign, is accepted and its value becomes the bound port, and
startup fails exactly on the values `int()` rejects. -/
theorem portParsingIntSemantics (ws1 ws2 ds : List Char)
    (h1 : ∀ c ∈ ws1, isPySpace c = true) (h2 : ∀ c ∈ ws2, isPySpace c = true)
    (hd : ∀ c ∈ ds, c.isDigit = true) (hne : ds ≠ []) :
    startup (some ⟨ws1 ++ ds ++ ws2⟩) =
      Except.ok ⟨Int.ofNat (digitsVal 0 ds),
        [bannerLine (Int.ofNat (digitsVal 0 ds))]⟩ ∧
    startup (some ⟨ws1 ++ '+' :: ds ++ ws2⟩) =
      Except.ok ⟨Int.ofNat (digitsVal 0 ds),
        [bannerLine (Int.ofNat (digitsVal 0 ds))]⟩ ∧
    (∀ s : String,
      startup (some s) =
          Except.error "ValueError: invalid literal for int with base 10" ↔
        pyInt s = none) := by
  have hdns : ∀ c ∈ ds, isPySpace c = false :=
    fun c hc => isPySpace_false_of_isDigit c (hd c hc)
  have hrevne : ds.reverse ≠ [] := fun h => hne (List.reverse_eq_nil_iff.mp h)
  have hstrip1 : pyStrip (ws1 ++ ds ++ ws2) = ds :=
    pyStrip_sandwich ws1 ws2 ds h1 h2 hne
      (fun c hc => hdns c (mem_of_headQ ds c hc))
      (fun c hc => hdns c (List.mem_reverse.mp (mem_of_headQ ds.reverse c hc)))
  have hstrip2 : pyStrip (ws1 ++ '+' :: ds ++ ws2) = '+' :: ds := by
    apply pyStrip_sandwich ws1 ws2 ('+' :: ds) h1 h2 (List.cons_ne_nil '+' ds)
    · intro c hc
      simp only [List.head?_cons, Option.some.injEq] at hc
      subst hc
      decide
    · intro c hc
      obtain ⟨r, rs, hr⟩ := List.exists_cons_of_ne_nil hrevne
      rw [List.reverse_cons, hr] at hc
      simp only [List.cons_append, List.head?_cons, Option.some.injEq] at hc
      subst hc
      exact hdns r (List.mem_reverse.mp (by rw [hr]; exact List.mem_cons_self r rs))
  have hpy1 : pyInt ⟨ws1 ++ ds ++ ws2⟩ = some (Int.ofNat (digitsVal 0 ds)) :=
    pyInt_of_strip_digits _ ds hstrip1 hd hne
  have hpy2 : pyInt ⟨ws1 ++ '+' :: ds ++ ws2⟩ = some (Int.ofNat (digitsVal 0 ds)) :=
    pyInt_of_strip_plus_digits _ ds hstrip2 hd hne
  refine ⟨?_, ?_, ?_⟩
  · simp only [startup, resolvePort, hpy1]
  · simp only [startup, resolvePort, hpy2]
  · intro s
    cases hp : pyInt s with
    | none => simp [startup, resolvePort, hp]
    | some v => simp [startup, resolvePort, hp]

/-- C10 witness: the value `" 8080 "` — digits surrounded by spaces — is
accepted and binds port 8080. -/
theorem portParsingIntSemanticsWitness :
    startup (some ⟨[' '] ++ ['8', '0', '8', '0'] ++ [' ']⟩) =
      Except.ok ⟨Int.ofNat (digitsVal 0 ['8', '0', '8', '0']),
        [bannerLine (Int.ofNat (digitsVal 0 ['8', '0', '8', '0']))]⟩ :=
  (portParsingIntSemantics [' '] [' '] ['8', '0', '8', '0']
    (by decide) (by decide) (by decide) (by decide)).1

end ElizaTown
